import Mathlib

/-!
# Verification of the stl2scad core against its specification

Shallow embedding of the pure core of the stl2scad repository:
vertex welding (`find_unique_vertices`), face construction and the
optimization pass (`optimize_scad`) from `stl2scad/core/converter.py`,
manifold validation (`validate_stl`), metric comparison
(`compare_metrics` from `stl2scad/core/verification/metrics.py`) and the
verification pipeline (`verify_existing_conversion`, `verify_conversion`,
`batch_verify` from `stl2scad/core/verification/verification.py`).

Machine floats are modelled by exact rationals; the numeric literals
(such as numpy's default absolute tolerance 1e-8) denote the real values
the Python code computes with.
-/

/-- A 3D point, one row of the reshaped `(-1, 3)` points array. -/
abbrev Q3 : Type := ℚ × ℚ × ℚ

/-- Default point used with `List.getD` when reading at a checked index. -/
def d0 : Q3 := (0, 0, 0)

/-- numpy's default absolute tolerance `atol = 1e-8` in `np.allclose`. -/
def npAtol : ℚ := 1 / 100000000

/-- One component of numpy's `isclose`: `|a - b| <= atol + rtol * |b|`.
`find_unique_vertices` calls `np.allclose(vertex, unique, rtol=tolerance)`,
so `rtol` is the user tolerance and `atol` keeps its default. -/
def npIsclose1 (a b tol : ℚ) : Bool :=
  decide (|a - b| ≤ npAtol + tol * |b|)

/-- `np.allclose(a, b, rtol=tol)` on 3D points: component-wise closeness. -/
def npAllclose (a b : Q3) (tol : ℚ) : Bool :=
  npIsclose1 a.1 b.1 tol && npIsclose1 a.2.1 b.2.1 tol && npIsclose1 a.2.2 b.2.2 tol

/-- The inner loop of `find_unique_vertices`: scan the unique list in order
and return the index of the first already-stored vertex close to `v`
(the Python loop breaks at the first match). -/
def scanFirst (tol : ℚ) (v : Q3) : List Q3 → Option Nat
  | [] => none
  | u :: rest =>
    if npAllclose v u tol then some 0
    else (scanFirst tol v rest).map (fun j => j + 1)

/-- The outer loop of `find_unique_vertices`, carrying the accumulated
unique-vertex list `us` and the original-index → unique-index map `m`. -/
def weldAux (tol : ℚ) (us : List Q3) (m : List Nat) : List Q3 → List Q3 × List Nat
  | [] => (us, m)
  | v :: rest =>
    match scanFirst tol v us with
    | some j => weldAux tol us (m ++ [j]) rest
    | none => weldAux tol (us ++ [v]) (m ++ [us.length]) rest

/-- `find_unique_vertices(points, tolerance)` from `converter.py`:
returns the unique-vertex list and the dense index map (the Python dict
has keys exactly `0 .. len(points)-1`, in order, so it is a list here). -/
def find_unique_vertices (points : List Q3) (tol : ℚ) : List Q3 × List Nat :=
  weldAux tol [] [] points

/-- The number of deduplicated vertices produced by welding. -/
def dedupCount (points : List Q3) (tol : ℚ) : Nat :=
  (find_unique_vertices points tol).1.length

/-- The closeness test the spec's §4.3 wording claims for the welder:
component-wise `|a - b| <= tolerance * max(|a|, |b|)`.  Kept separate from
`npIsclose1`, which is what the code actually evaluates. -/
def specClose1 (a b tol : ℚ) : Bool :=
  decide (|a - b| ≤ tol * max |a| |b|)

/-- The spec-claimed closeness test on 3D points. -/
def specClose (a b : Q3) (tol : ℚ) : Bool :=
  specClose1 a.1 b.1 tol && specClose1 a.2.1 b.2.1 tol && specClose1 a.2.2 b.2.2 tol

/-- The welder as the spec's words describe it: same scan-in-order
algorithm, but with the symmetric `specClose` predicate. -/
def scanFirstSpec (tol : ℚ) (v : Q3) : List Q3 → Option Nat
  | [] => none
  | u :: rest =>
    if specClose v u tol then some 0
    else (scanFirstSpec tol v rest).map (fun j => j + 1)

/-- Outer welding loop under the spec-claimed predicate. -/
def weldAuxSpec (tol : ℚ) (us : List Q3) (m : List Nat) : List Q3 → List Q3 × List Nat
  | [] => (us, m)
  | v :: rest =>
    match scanFirstSpec tol v us with
    | some j => weldAuxSpec tol us (m ++ [j]) rest
    | none => weldAuxSpec tol (us ++ [v]) (m ++ [us.length]) rest

/-- `find_unique_vertices` as the spec's §4.3 sentence describes it. -/
def find_unique_vertices_spec (points : List Q3) (tol : ℚ) : List Q3 × List Nat :=
  weldAuxSpec tol [] [] points

/-- Squared Euclidean distance between two points (used to state the
spec's "minimum pairwise distance" hypothesis exactly, without square
roots). -/
def distSq (p q : Q3) : ℚ :=
  (p.1 - q.1) ^ 2 + (p.2.1 - q.2.1) ^ 2 + (p.2.2 - q.2.2) ^ 2

section WeldLemmas

lemma scanFirst_eq_none_iff (tol : ℚ) (v : Q3) (us : List Q3) :
    scanFirst tol v us = none ↔ ∀ u ∈ us, npAllclose v u tol = false := by
  induction us with
  | nil => simp [scanFirst]
  | cons u rest ih =>
    by_cases h : npAllclose v u tol
    · simp [scanFirst, h]
    · simp only [scanFirst, if_neg h, Option.map_eq_none]
      simp only [Bool.not_eq_true] at h
      simp [ih, h]

lemma scanFirst_eq_some (tol : ℚ) (v : Q3) (us : List Q3) (j : Nat)
    (h : scanFirst tol v us = some j) :
    j < us.length ∧ npAllclose v (us.getD j d0) tol = true ∧
      ∀ k, k < j → npAllclose v (us.getD k d0) tol = false := by
  induction us generalizing j with
  | nil => simp [scanFirst] at h
  | cons u rest ih =>
    by_cases hc : npAllclose v u tol
    · simp only [scanFirst, if_pos hc, Option.some.injEq] at h
      subst h
      refine ⟨by simp, by simpa using hc, by omega⟩
    · rw [scanFirst, if_neg hc] at h
      cases hr : scanFirst tol v rest with
      | none => rw [hr] at h; simp at h
      | some j0 =>
        rw [hr] at h
        simp only [Option.map_some', Option.some.injEq] at h
        subst h
        obtain ⟨h1, h2, h3⟩ := ih j0 hr
        refine ⟨by simpa using h1, by simpa using h2, ?_⟩
        intro k hk
        match k with
        | 0 => simpa using hc
        | k + 1 => simpa using h3 k (by omega)

lemma weldAux_append (tol : ℚ) (us : List Q3) (m : List Nat) (xs ys : List Q3) :
    weldAux tol us m (xs ++ ys)
      = weldAux tol (weldAux tol us m xs).1 (weldAux tol us m xs).2 ys := by
  induction xs generalizing us m with
  | nil => simp [weldAux]
  | cons v rest ih =>
    simp only [List.cons_append, weldAux]
    cases scanFirst tol v us with
    | some j => exact ih _ _
    | none => exact ih _ _

lemma weldAux_map_length (tol : ℚ) (pts : List Q3) (us : List Q3) (m : List Nat) :
    (weldAux tol us m pts).2.length = m.length + pts.length := by
  induction pts generalizing us m with
  | nil => simp [weldAux]
  | cons v rest ih =>
    simp only [weldAux]
    cases scanFirst tol v us with
    | some j => rw [ih]; simp; omega
    | none => rw [ih]; simp; omega

lemma weldAux_us_mono (tol : ℚ) (pts : List Q3) (us : List Q3) (m : List Nat) :
    us.length ≤ (weldAux tol us m pts).1.length := by
  induction pts generalizing us m with
  | nil => simp [weldAux]
  | cons v rest ih =>
    simp only [weldAux]
    cases scanFirst tol v us with
    | some j => exact ih _ _
    | none =>
      calc us.length ≤ (us ++ [v]).length := by simp
        _ ≤ _ := ih _ _

lemma weldAux_entries_lt (tol : ℚ) (pts : List Q3) (us : List Q3) (m : List Nat)
    (h : ∀ e ∈ m, e < us.length) :
    ∀ e ∈ (weldAux tol us m pts).2, e < (weldAux tol us m pts).1.length := by
  induction pts generalizing us m with
  | nil =>
    intro e he
    simpa [weldAux] using h e (by simpa [weldAux] using he)
  | cons v rest ih =>
    intro e he
    simp only [weldAux] at he ⊢
    cases hs : scanFirst tol v us with
    | some j =>
      rw [hs] at he
      refine ih us (m ++ [j]) ?_ e he
      intro e' he'
      rcases List.mem_append.mp he' with h1 | h2
      · exact h e' h1
      · have := (scanFirst_eq_some tol v us j hs).1
        simpa using List.mem_singleton.mp h2 ▸ this
    | none =>
      rw [hs] at he
      refine ih (us ++ [v]) (m ++ [us.length]) ?_ e he
      intro e' he'
      rcases List.mem_append.mp he' with h1 | h2
      · have := h e' h1
        simp; omega
      · have : e' = us.length := List.mem_singleton.mp h2
        simp [this]

/-- Welding an input on which no point is `np.allclose` to any earlier
point leaves the whole state untouched: the unique list extends by the
input, the map extends by consecutive indices. -/
lemma weldAux_no_close (tol : ℚ) (rest : List Q3) (us : List Q3) (m : List Nat)
    (h1 : ∀ v ∈ rest, ∀ u ∈ us, npAllclose v u tol = false)
    (h2 : List.Pairwise (fun a b => npAllclose b a tol = false) rest) :
    weldAux tol us m rest = (us ++ rest, m ++ List.range' us.length rest.length) := by
  induction rest generalizing us m with
  | nil => simp [weldAux]
  | cons v rest ih =>
    have hnone : scanFirst tol v us = none :=
      (scanFirst_eq_none_iff tol v us).mpr (fun u hu => h1 v (by simp) u hu)
    simp only [weldAux, hnone]
    rw [ih (us ++ [v]) (m ++ [us.length]) ?_ (List.Pairwise.of_cons h2)]
    · simp [List.range'_succ]
    · intro v' hv' u hu
      rcases List.mem_append.mp hu with hl | hr
      · exact h1 v' (by simp [hv']) u hl
      · have : u = v := List.mem_singleton.mp hr
        subst this
        exact (List.pairwise_cons.mp h2).1 v' hv'

lemma take_succ_getD (l : List Q3) (i : Nat) (hi : i < l.length) :
    l.take (i + 1) = l.take i ++ [l.getD i d0] := by
  induction l generalizing i with
  | nil => simp at hi
  | cons x xs ih =>
    match i with
    | 0 => simp
    | i + 1 =>
      simp only [List.take_succ_cons, List.getD_cons_succ]
      rw [ih i (by simpa using hi)]
      simp

/-- Pointwise monotonicity of the numpy closeness test in the tolerance. -/
lemma npAllclose_mono (v u : Q3) {ta tb : ℚ} (hab : ta ≤ tb)
    (h : npAllclose v u ta = true) : npAllclose v u tb = true := by
  simp only [npAllclose, npIsclose1, Bool.and_eq_true, decide_eq_true_eq] at h ⊢
  exact ⟨⟨le_trans h.1.1 (by gcongr), le_trans h.1.2 (by gcongr)⟩,
    le_trans h.2 (by gcongr)⟩

lemma dedupCount_nil (t : ℚ) : dedupCount [] t = 0 := by
  simp [dedupCount, find_unique_vertices, weldAux]

lemma dedupCount_one (a : Q3) (t : ℚ) : dedupCount [a] t = 1 := by
  simp [dedupCount, find_unique_vertices, weldAux, scanFirst]

lemma dedupCount_two (a b : Q3) (t : ℚ) :
    dedupCount [a, b] t = if npAllclose b a t then 1 else 2 := by
  by_cases h : npAllclose b a t <;>
    simp [dedupCount, find_unique_vertices, weldAux, scanFirst, h]

lemma dedupCount_three (a b c : Q3) (t : ℚ) :
    dedupCount [a, b, c] t =
      if npAllclose b a t then (if npAllclose c a t then 1 else 2)
      else (if npAllclose c a t then 2 else if npAllclose c b t then 2 else 3) := by
  by_cases h1 : npAllclose b a t <;> by_cases h2 : npAllclose c a t <;>
    by_cases h3 : npAllclose c b t <;>
    simp [dedupCount, find_unique_vertices, weldAux, scanFirst, h1, h2, h3]

end WeldLemmas

/-- Concrete input showing two qualifying clusters: with tolerance 1/4 the
third point is close to both stored unique points, and folds into the
first one scanned. -/
def c1pts : List Q3 := [(1, 0, 0), ((3:ℚ)/2, 0, 0), ((5:ℚ)/4, 0, 0)]

/-- C1 (amended): the welder processes points in input order; for each
point it linearly scans the unique-point list accumulated so far and folds
the point into the first unique point satisfying the code's closeness test
(numpy `allclose`: component-wise `|a-b| <= 1e-8 + tolerance * |b|` with
`b` the stored unique point), recording that index; otherwise the point is
appended as a new unique point whose index it maps to.  When several
stored points qualify, the first in scan order wins. -/
theorem C1_weld_scan_order (pts : List Q3) (tol : ℚ) (i : Nat) (hi : i < pts.length) :
    (find_unique_vertices (pts.take (i + 1)) tol =
      match scanFirst tol (pts.getD i d0) (find_unique_vertices (pts.take i) tol).1 with
      | some j => ((find_unique_vertices (pts.take i) tol).1,
                   (find_unique_vertices (pts.take i) tol).2 ++ [j])
      | none => ((find_unique_vertices (pts.take i) tol).1 ++ [pts.getD i d0],
                 (find_unique_vertices (pts.take i) tol).2
                   ++ [(find_unique_vertices (pts.take i) tol).1.length]))
    ∧ (∀ j, scanFirst tol (pts.getD i d0) (find_unique_vertices (pts.take i) tol).1 = some j →
        j < (find_unique_vertices (pts.take i) tol).1.length ∧
        npAllclose (pts.getD i d0) ((find_unique_vertices (pts.take i) tol).1.getD j d0) tol
          = true ∧
        ∀ k, k < j →
          npAllclose (pts.getD i d0) ((find_unique_vertices (pts.take i) tol).1.getD k d0) tol
            = false)
    ∧ (scanFirst tol (pts.getD i d0) (find_unique_vertices (pts.take i) tol).1 = none →
        ∀ k, k < (find_unique_vertices (pts.take i) tol).1.length →
          npAllclose (pts.getD i d0) ((find_unique_vertices (pts.take i) tol).1.getD k d0) tol
            = false) := by
  refine ⟨?_, ?_, ?_⟩
  · rw [show find_unique_vertices (pts.take (i + 1)) tol
        = weldAux tol [] [] (pts.take i ++ [pts.getD i d0]) by
          rw [find_unique_vertices, take_succ_getD pts i hi]]
    rw [weldAux_append]
    show weldAux tol (find_unique_vertices (pts.take i) tol).1
      (find_unique_vertices (pts.take i) tol).2 [pts.getD i d0] = _
    rw [weldAux]
    cases scanFirst tol (pts.getD i d0) (find_unique_vertices (pts.take i) tol).1 <;> rfl
  · intro j hj
    exact scanFirst_eq_some tol _ _ j hj
  · intro hn k hk
    have hall := (scanFirst_eq_none_iff tol (pts.getD i d0)
      (find_unique_vertices (pts.take i) tol).1).mp hn
    rw [List.getD_eq_getElem _ d0 hk]
    exact hall _ (List.getElem_mem hk)

/-- C1 witness: welding `c1pts` at tolerance 1/4; at step `i = 2` both
stored unique points qualify and the scan picks the first. -/
theorem C1_weld_scan_order_witness :
    (2 < c1pts.length)
    ∧ ((find_unique_vertices (c1pts.take (2 + 1)) (1/4) =
      match scanFirst (1/4) (c1pts.getD 2 d0) (find_unique_vertices (c1pts.take 2) (1/4)).1 with
      | some j => ((find_unique_vertices (c1pts.take 2) (1/4)).1,
                   (find_unique_vertices (c1pts.take 2) (1/4)).2 ++ [j])
      | none => ((find_unique_vertices (c1pts.take 2) (1/4)).1 ++ [c1pts.getD 2 d0],
                 (find_unique_vertices (c1pts.take 2) (1/4)).2
                   ++ [(find_unique_vertices (c1pts.take 2) (1/4)).1.length]))
    ∧ (∀ j, scanFirst (1/4) (c1pts.getD 2 d0) (find_unique_vertices (c1pts.take 2) (1/4)).1
          = some j →
        j < (find_unique_vertices (c1pts.take 2) (1/4)).1.length ∧
        npAllclose (c1pts.getD 2 d0)
            ((find_unique_vertices (c1pts.take 2) (1/4)).1.getD j d0) (1/4) = true ∧
        ∀ k, k < j →
          npAllclose (c1pts.getD 2 d0)
              ((find_unique_vertices (c1pts.take 2) (1/4)).1.getD k d0) (1/4) = false)
    ∧ (scanFirst (1/4) (c1pts.getD 2 d0) (find_unique_vertices (c1pts.take 2) (1/4)).1 = none →
        ∀ k, k < (find_unique_vertices (c1pts.take 2) (1/4)).1.length →
          npAllclose (c1pts.getD 2 d0)
              ((find_unique_vertices (c1pts.take 2) (1/4)).1.getD k d0) (1/4) = false)) :=
  ⟨by norm_num [c1pts], C1_weld_scan_order c1pts (1/4) 2 (by norm_num [c1pts])⟩

/-- C1 counterexample: the claim's closeness test
`|a-b| <= tolerance * max(|a|,|b|)` is not the code's test.  At
tolerance 1/2 the claimed test folds (2,0,0) into (1,0,0) (welder of the
spec's wording yields one unique point), while the code's
`np.allclose(vertex, unique, rtol=tolerance)` keeps them distinct. -/
theorem C1_counterexample :
    specClose (2, 0, 0) (1, 0, 0) (1/2) = true
    ∧ npAllclose (2, 0, 0) (1, 0, 0) (1/2) = false
    ∧ (find_unique_vertices [((1:ℚ), 0, 0), ((2:ℚ), 0, 0)] (1/2)).1.length = 2
    ∧ (find_unique_vertices_spec [((1:ℚ), 0, 0), ((2:ℚ), 0, 0)] (1/2)).1.length = 1 := by
  refine ⟨?_, ?_, ?_, ?_⟩ <;>
    norm_num [find_unique_vertices, find_unique_vertices_spec, weldAux, weldAuxSpec,
      scanFirst, scanFirstSpec, npAllclose, npIsclose1, npAtol, specClose, specClose1,
      abs_le, abs_of_nonneg, abs_of_nonpos, max_def]

/-- C7 (amended): welding a point set in which no point passes the code's
closeness test (`np.allclose`) against any earlier point returns the
input point list unchanged and the identity index map. -/
theorem C7_weld_identity (pts : List Q3) (tol : ℚ)
    (h : List.Pairwise (fun a b => npAllclose b a tol = false) pts) :
    find_unique_vertices pts tol = (pts, List.range pts.length) := by
  rw [find_unique_vertices, weldAux_no_close tol pts [] [] (by simp) h]
  simp [List.range_eq_range']

/-- Already-unique pair for the C7 witness. -/
def c7wpts : List Q3 := [(0, 0, 0), (1, 0, 0)]

/-- C7 witness: two points not close at the default tolerance 1e-6 weld to
themselves with the identity map. -/
theorem C7_weld_identity_witness :
    List.Pairwise (fun a b => npAllclose b a (1/1000000) = false) c7wpts
    ∧ find_unique_vertices c7wpts (1/1000000) = (c7wpts, List.range c7wpts.length) := by
  have h : List.Pairwise (fun a b => npAllclose b a (1/1000000) = false) c7wpts := by
    refine List.Pairwise.cons ?_ (List.pairwise_singleton _ _)
    intro b hb
    rw [List.mem_singleton] at hb
    subst hb
    norm_num [npAllclose, npIsclose1, npAtol, abs_le]
  exact ⟨h, C7_weld_identity c7wpts (1/1000000) h⟩

/-- Two points at Euclidean distance 4 with the welding tolerance 1/2. -/
def c7pts : List Q3 := [(8, 0, 0), (12, 0, 0)]

/-- C7 counterexample: the minimum pairwise distance (4) exceeds the
tolerance (1/2), yet the code's relative closeness test folds the second
point into the first, so welding does not return the input point set and
the map is not the identity. -/
theorem C7_counterexample :
    distSq (8, 0, 0) (12, 0, 0) = 16
    ∧ ((1:ℚ)/2)^2 < 16
    ∧ (find_unique_vertices c7pts (1/2)).1.length = 1
    ∧ (find_unique_vertices c7pts (1/2)).2 = [0, 0]
    ∧ (find_unique_vertices c7pts (1/2)).1 ≠ c7pts := by
  refine ⟨?_, by norm_num, ?_, ?_, ?_⟩ <;>
    norm_num [c7pts, distSq, find_unique_vertices, weldAux, scanFirst,
      npAllclose, npIsclose1, npAtol, abs_le]

/-- C8 (amended): for point sets of at most three points the deduplicated
count is monotonically non-increasing in the tolerance.  (For four or more
points the scan-order dependence of welding breaks monotonicity; see the
counterexample.) -/
theorem C8_monotone_small (pts : List Q3) (ta tb : ℚ)
    (hlen : pts.length ≤ 3) (hab : ta ≤ tb) :
    dedupCount pts tb ≤ dedupCount pts ta := by
  have M : ∀ v u : Q3, npAllclose v u ta = true → npAllclose v u tb = true :=
    fun v u h => npAllclose_mono v u hab h
  rcases pts with _ | ⟨a, _ | ⟨b, _ | ⟨c, _ | ⟨d, rest⟩⟩⟩⟩
  · simp [dedupCount_nil]
  · simp [dedupCount_one]
  · rw [dedupCount_two, dedupCount_two]
    by_cases h1 : npAllclose b a ta
    · rw [if_pos h1, if_pos (M b a h1)]
    · split_ifs <;> omega
  · rw [dedupCount_three, dedupCount_three]
    by_cases h1 : npAllclose b a ta <;> by_cases h2 : npAllclose c a ta <;>
      by_cases h3 : npAllclose c b ta <;>
      by_cases h4 : npAllclose b a tb <;> by_cases h5 : npAllclose c a tb <;>
      by_cases h6 : npAllclose c b tb <;>
      first
      | (exact absurd (M b a h1) h4)
      | (exact absurd (M c a h2) h5)
      | (exact absurd (M c b h3) h6)
      | (simp [h1, h2, h3, h4, h5, h6] <;> omega)
  · simp at hlen

/-- C8 witness: three collinear points at tolerances 1/64 ≤ 1/32. -/
theorem C8_monotone_small_witness :
    ([((0:ℚ), 0, 0), ((1:ℚ), 0, 0), ((2:ℚ), 0, 0)] : List Q3).length ≤ 3
    ∧ ((1:ℚ)/64) ≤ 1/32
    ∧ dedupCount [((0:ℚ), 0, 0), ((1:ℚ), 0, 0), ((2:ℚ), 0, 0)] (1/32)
        ≤ dedupCount [((0:ℚ), 0, 0), ((1:ℚ), 0, 0), ((2:ℚ), 0, 0)] (1/64) :=
  ⟨by norm_num, by norm_num,
    C8_monotone_small [((0:ℚ), 0, 0), ((1:ℚ), 0, 0), ((2:ℚ), 0, 0)] (1/64) (1/32)
      (by norm_num) (by norm_num)⟩

/-- Four points on which greedy welding is not monotone in tolerance. -/
def c8pts : List Q3 :=
  [(64, 0, 0), ((131:ℚ)/2, 0, 0),
   ((265:ℚ)/4, 1/100000000, 0), ((265:ℚ)/4, -1/100000000, 0)]

/-- C8 counterexample: at the smaller tolerance 1/64 the four points weld
to 2 unique points, at the larger tolerance 1/32 they weld to 3: the
deduplicated count increases with the tolerance, refuting monotonicity. -/
theorem C8_counterexample :
    ((1:ℚ)/64) ≤ 1/32
    ∧ dedupCount c8pts (1/64) = 2
    ∧ dedupCount c8pts (1/32) = 3 := by
  refine ⟨by norm_num, ?_, ?_⟩ <;>
    norm_num [c8pts, dedupCount, find_unique_vertices, weldAux, scanFirst,
      npAllclose, npIsclose1, npAtol, abs_le, abs_of_nonneg, abs_of_nonpos]

/-- Face construction in `stl2scad`: triangles are taken 3 points at a
time in input order (`for i in range(0, len(points), 3)`), each face being
the welded indices of the triangle's three vertices, in original order
(winding preserved).  The Python loop runs `ceil(n/3)` times; the
converter always passes `n = 3 * triangle_count`. -/
def buildFaces (m : List Nat) (n : Nat) : List (List Nat) :=
  (List.range ((n + 2) / 3)).map
    (fun k => [m.getD (3 * k) 0, m.getD (3 * k + 1) 0, m.getD (3 * k + 2) 0])

/-- The `new_points` list built by `optimize_scad`: points whose index is
in the used set, kept in original order. -/
def optPoints (used : List Nat) : List Q3 → Nat → List Q3
  | [], _ => []
  | v :: rest, i =>
    if i ∈ used then v :: optPoints used rest (i + 1)
    else optPoints used rest (i + 1)

/-- The `vertex_map` dict built by `optimize_scad`: each used index maps
to its position in `new_points` (the running length at insertion time). -/
def optMap (used : List Nat) : List Q3 → Nat → Nat → List (Nat × Nat)
  | [], _, _ => []
  | _ :: rest, i, base =>
    if i ∈ used then (i, base) :: optMap used rest (i + 1) (base + 1)
    else optMap used rest (i + 1) base

/-- `[vertex_map[v] for v in face]`: a missing key (possible only for an
out-of-range index) is a Python `KeyError`, modelled as `none`. -/
def mapFace (vmap : List (Nat × Nat)) : List Nat → Option (List Nat)
  | [] => some []
  | v :: vs =>
    match vmap.lookup v, mapFace vmap vs with
    | some r, some rs => some (r :: rs)
    | _, _ => none

/-- The face-rewrite comprehension of `optimize_scad` over all faces. -/
def mapFaces (vmap : List (Nat × Nat)) : List (List Nat) → Option (List (List Nat))
  | [] => some []
  | f :: rest =>
    match mapFace vmap f, mapFaces vmap rest with
    | some f1, some rest1 => some (f1 :: rest1)
    | _, _ => none

/-- `optimize_scad(points, faces)` from `converter.py`: drop points not
referenced by any face, renumber, and rewrite the faces. -/
def optimize_scad (points : List Q3) (faces : List (List Nat)) :
    Option (List Q3 × List (List Nat)) :=
  let used := faces.flatten
  match mapFaces (optMap used points 0 0) faces with
  | some new_faces => some (optPoints used points 0, new_faces)
  | none => none

/-- The complete pure pipeline of `stl2scad`: weld, build faces, optimize
(the file-writing around it is I/O only). -/
def stl2scadGeometry (points : List Q3) (tol : ℚ) : Option (List Q3 × List (List Nat)) :=
  optimize_scad (find_unique_vertices points tol).1
    (buildFaces (find_unique_vertices points tol).2 points.length)

section OptimizeLemmas

lemma optPoints_eq_filter (used : List Nat) (pts : List Q3) :
    ∀ i, optPoints used pts i
      = ((List.range pts.length).filter (fun k => decide ((i + k) ∈ used))).map
          (fun k => pts.getD k d0) := by
  induction pts with
  | nil => intro i; simp [optPoints]
  | cons v rest ih =>
    intro i
    have hfun : ∀ k, ((i + (k + 1)) ∈ used) = (((i + 1) + k) ∈ used) := by
      intro k
      have : i + (k + 1) = (i + 1) + k := by omega
      rw [this]
    have hr : List.range (v :: rest).length = 0 :: (List.range rest.length).map Nat.succ := by
      rw [List.length_cons]
      exact List.range_succ_eq_map rest.length
    have hpred : (fun k => decide (((i + 1) + k) ∈ used))
        = ((fun k => decide ((i + k) ∈ used)) ∘ Nat.succ) := by
      funext k
      simp only [Function.comp_apply, Nat.succ_eq_add_one, hfun]
    rw [optPoints, hr]
    simp only [List.filter_cons, Nat.add_zero]
    by_cases h : i ∈ used
    · rw [if_pos h]
      have htrue : (decide (i ∈ used)) = true := by simp [h]
      rw [if_pos htrue, List.filter_map, List.map_cons, List.map_map, ih (i + 1)]
      rw [← hpred]
      rfl
    · rw [if_neg h]
      have hfalse : ¬((decide (i ∈ used)) = true) := by simp [h]
      rw [if_neg hfalse, List.filter_map, List.map_map, ih (i + 1), ← hpred]
      rfl

lemma optMap_lookup_spec (used : List Nat) (pts : List Q3) :
    ∀ (i base j : Nat), j < pts.length → (i + j) ∈ used →
      ∃ r, (optMap used pts i base).lookup (i + j) = some r ∧ base ≤ r ∧
        r - base < (optPoints used pts i).length ∧
        (optPoints used pts i).getD (r - base) d0 = pts.getD j d0 := by
  induction pts with
  | nil => intro i base j hj; simp at hj
  | cons v rest ih =>
    intro i base j hj hused
    match j with
    | 0 =>
      have hiu : i ∈ used := by simpa using hused
      refine ⟨base, ?_, le_refl base, ?_, ?_⟩
      · simp [optMap, hiu, List.lookup]
      · simp [optPoints, hiu]
      · simp [optPoints, hiu]
    | j' + 1 =>
      have hj' : j' < rest.length := by simpa using hj
      have hused' : (i + 1) + j' ∈ used := by
        have : i + (j' + 1) = (i + 1) + j' := by omega
        rwa [this] at hused
      by_cases hiu : i ∈ used
      · obtain ⟨r, hr, hbase, hlt, hval⟩ := ih (i + 1) (base + 1) j' hj' hused'
        refine ⟨r, ?_, by omega, ?_, ?_⟩
        · rw [optMap, if_pos hiu]
          have hne : ((i + (j' + 1) == i) : Bool) = false := by
            simp only [beq_eq_false_iff_ne, ne_eq]
            omega
          simp only [List.lookup, hne]
          have : i + (j' + 1) = (i + 1) + j' := by omega
          rwa [this]
        · rw [optPoints, if_pos hiu]
          simp only [List.length_cons]
          omega
        · rw [optPoints, if_pos hiu]
          have hrb : r - base = (r - (base + 1)) + 1 := by omega
          rw [hrb]
          simpa using hval
      · obtain ⟨r, hr, hbase, hlt, hval⟩ := ih (i + 1) base j' hj' hused'
        refine ⟨r, ?_, hbase, ?_, ?_⟩
        · rw [optMap, if_neg hiu]
          have : i + (j' + 1) = (i + 1) + j' := by omega
          rwa [this]
        · rwa [optPoints, if_neg hiu]
        · rw [optPoints, if_neg hiu]
          simpa using hval

lemma optPoints_all_used (used : List Nat) (pts : List Q3) :
    ∀ i, (∀ k, k < pts.length → (i + k) ∈ used) → optPoints used pts i = pts := by
  induction pts with
  | nil => intro i _; simp [optPoints]
  | cons v rest ih =>
    intro i h
    have h0 : i ∈ used := by simpa using h 0 (by simp)
    rw [optPoints, if_pos h0, ih (i + 1)]
    intro k hk
    have : (i + 1) + k = i + (k + 1) := by omega
    rw [this]
    exact h (k + 1) (by simpa using hk)

lemma optMap_lookup_all_used (used : List Nat) (pts : List Q3) :
    ∀ i base j, j < pts.length → (∀ k, k < pts.length → (i + k) ∈ used) →
      (optMap used pts i base).lookup (i + j) = some (base + j) := by
  induction pts with
  | nil => intro i base j hj; simp at hj
  | cons v rest ih =>
    intro i base j hj h
    have h0 : i ∈ used := by simpa using h 0 (by simp)
    rw [optMap, if_pos h0]
    match j with
    | 0 => simp [List.lookup]
    | j' + 1 =>
      have hne : ((i + (j' + 1) == i) : Bool) = false := by
        simp only [beq_eq_false_iff_ne, ne_eq]
        omega
      simp only [List.lookup, hne]
      have h1 : i + (j' + 1) = (i + 1) + j' := by omega
      have h2 : base + (j' + 1) = (base + 1) + j' := by omega
      rw [h1, h2]
      refine ih (i + 1) (base + 1) j' (by simpa using hj) ?_
      intro k hk
      have : (i + 1) + k = i + (k + 1) := by omega
      rw [this]
      exact h (k + 1) (by simpa using hk)

lemma mapFace_spec (vmap : List (Nat × Nat)) (f : List Nat)
    (h : ∀ v ∈ f, (vmap.lookup v).isSome) :
    ∃ f1, mapFace vmap f = some f1 ∧ f1.length = f.length ∧
      (∀ l, l < f.length → vmap.lookup (f.getD l 0) = some (f1.getD l 0)) ∧
      (∀ r ∈ f1, ∃ v ∈ f, vmap.lookup v = some r) := by
  induction f with
  | nil => exact ⟨[], rfl, rfl, by intro l hl; simp at hl, by intro r hr; simp at hr⟩
  | cons v vs ih =>
    have hv : (vmap.lookup v).isSome := h v (by simp)
    obtain ⟨r, hr⟩ := Option.isSome_iff_exists.mp hv
    obtain ⟨f1, hf1, hlen, hval, hsrc⟩ := ih (fun u hu => h u (by simp [hu]))
    refine ⟨r :: f1, ?_, by simp [hlen], ?_, ?_⟩
    · rw [mapFace, hr, hf1]
    · intro l hl
      match l with
      | 0 => simpa using hr
      | l' + 1 => simpa using hval l' (by simpa using hl)
    · intro r1 hr1
      rcases List.mem_cons.mp hr1 with h1 | h2
      · exact ⟨v, by simp, h1 ▸ hr⟩
      · obtain ⟨u, hu, hu2⟩ := hsrc r1 h2
        exact ⟨u, by simp [hu], hu2⟩

lemma mapFaces_spec (vmap : List (Nat × Nat)) (faces : List (List Nat))
    (h : ∀ f ∈ faces, ∀ v ∈ f, (vmap.lookup v).isSome) :
    ∃ fs1, mapFaces vmap faces = some fs1 ∧ fs1.length = faces.length ∧
      (∀ k, k < faces.length → mapFace vmap (faces.getD k []) = some (fs1.getD k [])) ∧
      (∀ f1 ∈ fs1, ∃ f ∈ faces, mapFace vmap f = some f1) := by
  induction faces with
  | nil => exact ⟨[], rfl, rfl, by intro k hk; simp at hk, by intro f1 h1; simp at h1⟩
  | cons f rest ih =>
    obtain ⟨f1, hf1, _, _, _⟩ := mapFace_spec vmap f (h f (by simp))
    obtain ⟨fs1, hfs1, hlen, hval, hsrc⟩ := ih (fun g hg => h g (by simp [hg]))
    refine ⟨f1 :: fs1, ?_, by simp [hlen], ?_, ?_⟩
    · rw [mapFaces, hf1, hfs1]
    · intro k hk
      match k with
      | 0 => simpa using hf1
      | k' + 1 => simpa using hval k' (by simpa using hk)
    · intro g1 hg1
      rcases List.mem_cons.mp hg1 with h1 | h2
      · exact ⟨f, by simp, h1 ▸ hf1⟩
      · obtain ⟨g, hg, hg2⟩ := hsrc g1 h2
        exact ⟨g, by simp [hg], hg2⟩

lemma mapFace_id (vmap : List (Nat × Nat)) (f : List Nat)
    (h : ∀ v ∈ f, vmap.lookup v = some v) : mapFace vmap f = some f := by
  induction f with
  | nil => rfl
  | cons v vs ih =>
    rw [mapFace, h v (by simp), ih (fun u hu => h u (by simp [hu]))]

lemma mapFaces_id (vmap : List (Nat × Nat)) (faces : List (List Nat))
    (h : ∀ f ∈ faces, ∀ v ∈ f, vmap.lookup v = some v) : mapFaces vmap faces = some faces := by
  induction faces with
  | nil => rfl
  | cons f rest ih =>
    rw [mapFaces, mapFace_id vmap f (h f (by simp)), ih (fun g hg => h g (by simp [hg]))]

end OptimizeLemmas

lemma optMap_lookup_some_bound (used : List Nat) (pts : List Q3) :
    ∀ i base x r, (optMap used pts i base).lookup x = some r →
      base ≤ r ∧ r - base < (optPoints used pts i).length := by
  induction pts with
  | nil => intro i base x r h; simp [optMap, List.lookup] at h
  | cons v rest ih =>
    intro i base x r h
    rw [optMap] at h
    by_cases hiu : i ∈ used
    · rw [if_pos hiu] at h
      by_cases hx : (x == i : Bool) = true
      · simp only [List.lookup, hx, Option.some.injEq] at h
        subst h
        refine ⟨le_refl _, ?_⟩
        simp [optPoints, hiu]
      · simp only [List.lookup, Bool.not_eq_true] at hx h
        rw [hx] at h
        obtain ⟨h1, h2⟩ := ih (i + 1) (base + 1) x r h
        refine ⟨by omega, ?_⟩
        rw [optPoints, if_pos hiu]
        simp only [List.length_cons]
        omega
    · rw [if_neg hiu] at h
      obtain ⟨h1, h2⟩ := ih (i + 1) base x r h
      rw [optPoints, if_neg hiu]
      exact ⟨h1, h2⟩

/-- Full behaviour of `optimize_scad` on in-range faces: shared backbone
for the optimization-pass and pipeline-invariant theorems. -/
lemma optimize_scad_spec (points : List Q3) (faces : List (List Nat))
    (hin : ∀ f ∈ faces, ∀ v ∈ f, v < points.length) :
    ∃ nps nfs, optimize_scad points faces = some (nps, nfs)
      ∧ nps = ((List.range points.length).filter
          (fun k => decide (k ∈ faces.flatten))).map (fun k => points.getD k d0)
      ∧ nfs.length = faces.length
      ∧ (∀ f1 ∈ nfs, ∀ r ∈ f1, r < nps.length)
      ∧ (∀ k, k < faces.length →
          (nfs.getD k []).length = (faces.getD k []).length
          ∧ ∀ l, l < (faces.getD k []).length →
              (nfs.getD k []).getD l 0 < nps.length
              ∧ nps.getD ((nfs.getD k []).getD l 0) d0
                  = points.getD ((faces.getD k []).getD l 0) d0)
      ∧ ((∀ j, j < points.length → j ∈ faces.flatten) →
          optimize_scad points faces = some (points, faces)) := by
  have hsome : ∀ f ∈ faces, ∀ v ∈ f, ((optMap faces.flatten points 0 0).lookup v).isSome := by
    intro f hf v hv
    have hvu : v ∈ faces.flatten := List.mem_flatten.mpr ⟨f, hf, hv⟩
    have hvn : v < points.length := hin f hf v hv
    obtain ⟨r, hr, _⟩ := optMap_lookup_spec faces.flatten points 0 0 v hvn
      (by simpa using hvu)
    rw [Nat.zero_add] at hr
    rw [hr]
    rfl
  obtain ⟨fs1, hfs1, hflen, hfval, hfsrc⟩ := mapFaces_spec _ faces hsome
  have hopt : optimize_scad points faces = some (optPoints faces.flatten points 0, fs1) := by
    simp only [optimize_scad]
    rw [hfs1]
  refine ⟨optPoints faces.flatten points 0, fs1, hopt, ?_, hflen, ?_, ?_, ?_⟩
  · have hp : (fun k => decide ((0 + k) ∈ faces.flatten))
        = (fun k => decide (k ∈ faces.flatten)) := by
      funext k
      rw [Nat.zero_add]
    rw [optPoints_eq_filter faces.flatten points 0, hp]
  · intro f1 hf1 r hr
    obtain ⟨f, hf, hmf⟩ := hfsrc f1 hf1
    obtain ⟨f1b, hf1b, _, _, hsrc⟩ := mapFace_spec _ f (fun v hv => hsome f hf v hv)
    rw [hmf] at hf1b
    obtain rfl : f1 = f1b := by simpa using hf1b
    obtain ⟨v, hv, hlook⟩ := hsrc r hr
    obtain ⟨_, hb⟩ := optMap_lookup_some_bound faces.flatten points 0 0 v r hlook
    simpa using hb
  · intro k hk
    have hfmem : faces.getD k [] ∈ faces := by
      rw [List.getD_eq_getElem faces [] hk]
      exact List.getElem_mem hk
    obtain ⟨f1b, hf1b, hlenb, hvalb, _⟩ :=
      mapFace_spec _ (faces.getD k []) (fun v hv => hsome _ hfmem v hv)
    have hfk := hfval k hk
    rw [hfk] at hf1b
    obtain rfl : fs1.getD k [] = f1b := by simpa using hf1b
    refine ⟨hlenb, ?_⟩
    intro l hl
    have hv : (faces.getD k []).getD l 0 ∈ faces.getD k [] := by
      rw [List.getD_eq_getElem (faces.getD k []) 0 hl]
      exact List.getElem_mem hl
    have hvu : (faces.getD k []).getD l 0 ∈ faces.flatten :=
      List.mem_flatten.mpr ⟨_, hfmem, hv⟩
    have hvn : (faces.getD k []).getD l 0 < points.length := hin _ hfmem _ hv
    obtain ⟨r, hr, _, hbound, hvalq⟩ :=
      optMap_lookup_spec faces.flatten points 0 0 _ hvn (by simpa using hvu)
    rw [Nat.zero_add] at hr
    have hrl := hvalb l hl
    rw [hr] at hrl
    obtain rfl : r = (fs1.getD k []).getD l 0 := by simpa using hrl
    constructor
    · simpa using hbound
    · simpa using hvalq
  · intro hall
    have hpts : optPoints faces.flatten points 0 = points :=
      optPoints_all_used _ points 0 (fun k hk => by simpa using hall k hk)
    have hid : mapFaces (optMap faces.flatten points 0 0) faces = some faces := by
      refine mapFaces_id _ faces ?_
      intro f hf v hv
      have hvn : v < points.length := hin f hf v hv
      have := optMap_lookup_all_used faces.flatten points 0 0 v hvn
        (fun k hk => by simpa using hall k hk)
      simpa using this
    simp only [optimize_scad]
    rw [hid, hpts]

lemma buildFaces_length (m : List Nat) (n : Nat) :
    (buildFaces m n).length = (n + 2) / 3 := by
  simp [buildFaces]

lemma buildFaces_getD (m : List Nat) (n k : Nat) (hk : k < (n + 2) / 3) :
    (buildFaces m n).getD k []
      = [m.getD (3 * k) 0, m.getD (3 * k + 1) 0, m.getD (3 * k + 2) 0] := by
  rw [buildFaces, List.getD_eq_getElem _ [] (by simpa using hk)]
  simp

lemma buildFaces_mem (m : List Nat) (n : Nat) (f : List Nat) (hf : f ∈ buildFaces m n) :
    ∃ k, k < (n + 2) / 3 ∧
      f = [m.getD (3 * k) 0, m.getD (3 * k + 1) 0, m.getD (3 * k + 2) 0] := by
  simp only [buildFaces, List.mem_map, List.mem_range] at hf
  obtain ⟨k, hk, rfl⟩ := hf
  exact ⟨k, hk, rfl⟩


/-- C9: the optimize pass keeps exactly the points referenced by some
face, in their original relative order, renumbers the faces so that each
face position refers to the same coordinate value as before, and is the
identity when every point is referenced.  (Indices must be in range; an
out-of-range index is a `KeyError` in the source.) -/
theorem C9_optimize_scad (points : List Q3) (faces : List (List Nat))
    (hin : ∀ f ∈ faces, ∀ v ∈ f, v < points.length) :
    ∃ nps nfs, optimize_scad points faces = some (nps, nfs)
      ∧ nps = ((List.range points.length).filter
          (fun k => decide (k ∈ faces.flatten))).map (fun k => points.getD k d0)
      ∧ nfs.length = faces.length
      ∧ (∀ f1 ∈ nfs, ∀ r ∈ f1, r < nps.length)
      ∧ (∀ k, k < faces.length →
          (nfs.getD k []).length = (faces.getD k []).length
          ∧ ∀ l, l < (faces.getD k []).length →
              (nfs.getD k []).getD l 0 < nps.length
              ∧ nps.getD ((nfs.getD k []).getD l 0) d0
                  = points.getD ((faces.getD k []).getD l 0) d0)
      ∧ ((∀ j, j < points.length → j ∈ faces.flatten) →
          optimize_scad points faces = some (points, faces)) :=
  optimize_scad_spec points faces hin

/-- Point set with an unreferenced trailing point, for the C9 witness. -/
def c9pts : List Q3 := [(0, 0, 0), (1, 0, 0), (5, 5, 5)]

/-- Faces referencing only the first two points of `c9pts`. -/
def c9faces : List (List Nat) := [[0, 1, 0]]

/-- C9 witness: optimizing a geometry with an unreferenced point. -/
theorem C9_optimize_scad_witness :
    (∀ f ∈ c9faces, ∀ v ∈ f, v < c9pts.length)
    ∧ (∃ nps nfs, optimize_scad c9pts c9faces = some (nps, nfs)
      ∧ nps = ((List.range c9pts.length).filter
          (fun k => decide (k ∈ c9faces.flatten))).map (fun k => c9pts.getD k d0)
      ∧ nfs.length = c9faces.length
      ∧ (∀ f1 ∈ nfs, ∀ r ∈ f1, r < nps.length)
      ∧ (∀ k, k < c9faces.length →
          (nfs.getD k []).length = (c9faces.getD k []).length
          ∧ ∀ l, l < (c9faces.getD k []).length →
              (nfs.getD k []).getD l 0 < nps.length
              ∧ nps.getD ((nfs.getD k []).getD l 0) d0
                  = c9pts.getD ((c9faces.getD k []).getD l 0) d0)
      ∧ ((∀ j, j < c9pts.length → j ∈ c9faces.flatten) →
          optimize_scad c9pts c9faces = some (c9pts, c9faces))) :=
  ⟨by decide, C9_optimize_scad c9pts c9faces (by decide)⟩

/-- C2: after welding, face construction and the optimization pass, the
face count equals the triangle count (one third of the point count),
every face index is in range of the final vertex array, and each face
slot `l` of triangle `k` still denotes the welded representative of
original vertex `3k + l` (winding preserved). -/
theorem C2_pipeline (points : List Q3) (tol : ℚ) (T : Nat)
    (hT : points.length = 3 * T) :
    ∃ nps nfs, stl2scadGeometry points tol = some (nps, nfs)
      ∧ nfs.length = T
      ∧ (∀ f ∈ nfs, ∀ v ∈ f, v < nps.length)
      ∧ (∀ k, k < T → (nfs.getD k []).length = 3
          ∧ ∀ l, l < 3 →
              nps.getD ((nfs.getD k []).getD l 0) d0
                = (find_unique_vertices points tol).1.getD
                    ((find_unique_vertices points tol).2.getD (3 * k + l) 0) d0) := by
  have hmlen : (find_unique_vertices points tol).2.length = points.length := by
    rw [find_unique_vertices]
    simpa using weldAux_map_length tol points [] []
  have hment : ∀ e ∈ (find_unique_vertices points tol).2,
      e < (find_unique_vertices points tol).1.length := by
    rw [find_unique_vertices]
    exact weldAux_entries_lt tol points [] [] (by simp)
  have hT3 : (points.length + 2) / 3 = T := by omega
  have hin : ∀ f ∈ buildFaces (find_unique_vertices points tol).2 points.length,
      ∀ v ∈ f, v < (find_unique_vertices points tol).1.length := by
    intro f hf v hv
    obtain ⟨k, hk, rfl⟩ := buildFaces_mem _ _ f hf
    rw [hT3] at hk
    have hidx : 3 * k + 2 < (find_unique_vertices points tol).2.length := by
      rw [hmlen]; omega
    simp only [List.mem_cons, List.not_mem_nil, or_false] at hv
    rcases hv with rfl | rfl | rfl
    · refine hment _ ?_
      rw [List.getD_eq_getElem _ 0 (by omega)]
      exact List.getElem_mem (by omega)
    · refine hment _ ?_
      rw [List.getD_eq_getElem _ 0 (by omega)]
      exact List.getElem_mem (by omega)
    · refine hment _ ?_
      rw [List.getD_eq_getElem _ 0 hidx]
      exact List.getElem_mem hidx
  obtain ⟨nps, nfs, hopt, hfilter, hlen, hbnd, hpos, hnoop⟩ :=
    optimize_scad_spec (find_unique_vertices points tol).1
      (buildFaces (find_unique_vertices points tol).2 points.length) hin
  refine ⟨nps, nfs, hopt, ?_, hbnd, ?_⟩
  · rw [hlen, buildFaces_length, hT3]
  · intro k hk
    have hkF : k < (buildFaces (find_unique_vertices points tol).2 points.length).length := by
      rw [buildFaces_length, hT3]; exact hk
    obtain ⟨hlenk, hvals⟩ := hpos k hkF
    have hFk := buildFaces_getD (find_unique_vertices points tol).2 points.length k
      (by rw [hT3]; exact hk)
    refine ⟨by rw [hlenk, hFk]; rfl, ?_⟩
    intro l hl
    have hl3 : l < ((buildFaces (find_unique_vertices points tol).2 points.length).getD k []).length := by
      rw [hFk]; simpa using hl
    obtain ⟨_, hval⟩ := hvals l hl3
    rw [hval, hFk]
    match l, hl with
    | 0, _ => simp
    | 1, _ => simp
    | 2, _ => simp

/-- One-triangle input for the C2 witness. -/
def c2pts : List Q3 := [(0, 0, 0), (1, 0, 0), (0, 1, 0)]

/-- C2 witness: the pipeline run on a single triangle. -/
theorem C2_pipeline_witness :
    c2pts.length = 3 * 1
    ∧ (∃ nps nfs, stl2scadGeometry c2pts (1/1000000) = some (nps, nfs)
      ∧ nfs.length = 1
      ∧ (∀ f ∈ nfs, ∀ v ∈ f, v < nps.length)
      ∧ (∀ k, k < 1 → (nfs.getD k []).length = 3
          ∧ ∀ l, l < 3 →
              nps.getD ((nfs.getD k []).getD l 0) d0
                = (find_unique_vertices c2pts (1/1000000)).1.getD
                    ((find_unique_vertices c2pts (1/1000000)).2.getD (3 * k + l) 0) d0)) :=
  ⟨by decide, C2_pipeline c2pts (1/1000000) 1 (by decide)⟩

/-- A triangle: 3 ordered 3D points (one row of `mesh.vectors`). -/
abbrev Tri : Type := Q3 × Q3 × Q3

/-- Lexicographic `<` on 3-tuples, as Python compares coordinate tuples. -/
def ptLt (p q : Q3) : Bool :=
  if p.1 < q.1 then true
  else if q.1 < p.1 then false
  else if p.2.1 < q.2.1 then true
  else if q.2.1 < p.2.1 then false
  else decide (p.2.2 < q.2.2)

/-- `tuple(sorted([p, q]))`: the unordered edge key.  Python's sort is
stable and swaps the two endpoints only when the second is smaller. -/
def edgeKey (p q : Q3) : Q3 × Q3 :=
  if ptLt q p then (q, p) else (p, q)

/-- The three edge keys of one triangle, in the loop's `j, (j+1) % 3`
order. -/
def triEdges (t : Tri) : List (Q3 × Q3) :=
  [edgeKey t.1 t.2.1, edgeKey t.2.1 t.2.2, edgeKey t.2.2 t.1]

/-- Every edge-key occurrence over the whole mesh, triangle by triangle
(one entry per `edges[edge].append(i)` in the source). -/
def allEdges (mesh : List Tri) : List (Q3 × Q3) :=
  mesh.flatMap triEdges

/-- `len(edges[e])`: how many times edge key `e` was appended to. -/
def edgeCount (mesh : List Tri) (e : Q3 × Q3) : Nat :=
  ((allEdges mesh).filter (fun x => decide (x = e))).length

/-- Insert a dict key, keeping first-occurrence order (Python dicts). -/
def insertKey (acc : List (Q3 × Q3)) (e : Q3 × Q3) : List (Q3 × Q3) :=
  if e ∈ acc then acc else acc ++ [e]

/-- The distinct keys of the `edges` dict, in insertion order. -/
def dictKeys (l : List (Q3 × Q3)) : List (Q3 × Q3) :=
  l.foldl insertKey []

/-- `non_manifold = [e for e, faces in edges.items() if len(faces) > 2]`. -/
def nonManifoldEdges (mesh : List Tri) : List (Q3 × Q3) :=
  (dictKeys (allEdges mesh)).filter (fun e => decide (2 < edgeCount mesh e))

/-- The two failure cases of `validate_stl` (`STLValidationError` carries
the distinguishing message: "Empty STL file" or the non-manifold edge
count). -/
inductive STLValidationError where
  | emptyMesh : STLValidationError
  | nonManifold (count : Nat) : STLValidationError
deriving DecidableEq

/-- `validate_stl(mesh)` from `converter.py`: reject empty meshes, then
reject meshes with any edge key referenced more than twice, reporting how
many distinct edge keys are over-referenced. -/
def validate_stl (mesh : List Tri) : Except STLValidationError Unit :=
  if mesh.length = 0 then Except.error STLValidationError.emptyMesh
  else if (nonManifoldEdges mesh).length ≠ 0 then
    Except.error (STLValidationError.nonManifold (nonManifoldEdges mesh).length)
  else Except.ok ()

lemma mem_foldl_insertKey (a : Q3 × Q3) :
    ∀ (l : List (Q3 × Q3)) (acc : List (Q3 × Q3)),
      a ∈ l.foldl insertKey acc ↔ a ∈ acc ∨ a ∈ l := by
  intro l
  induction l with
  | nil => intro acc; simp
  | cons e rest ih =>
    intro acc
    rw [List.foldl_cons, ih]
    by_cases h : e ∈ acc
    · simp only [insertKey, if_pos h]
      constructor
      · rintro (h1 | h2)
        · exact Or.inl h1
        · exact Or.inr (by simp [h2])
      · rintro (h1 | h2)
        · exact Or.inl h1
        · rcases List.mem_cons.mp h2 with rfl | h3
          · exact Or.inl h
          · exact Or.inr h3
    · simp only [insertKey, if_neg h, List.mem_append, List.mem_singleton]
      constructor
      · rintro ((h1 | h1) | h2)
        · exact Or.inl h1
        · exact Or.inr (by simp [h1])
        · exact Or.inr (by simp [h2])
      · rintro (h1 | h2)
        · exact Or.inl (Or.inl h1)
        · rcases List.mem_cons.mp h2 with rfl | h3
          · exact Or.inl (Or.inr rfl)
          · exact Or.inr h3

lemma mem_dictKeys (a : Q3 × Q3) (l : List (Q3 × Q3)) :
    a ∈ dictKeys l ↔ a ∈ l := by
  rw [dictKeys, mem_foldl_insertKey]
  simp

lemma nonManifoldEdges_eq_nil_iff (mesh : List Tri) :
    (nonManifoldEdges mesh).length = 0 ↔
      ∀ e ∈ allEdges mesh, edgeCount mesh e ≤ 2 := by
  rw [List.length_eq_zero, nonManifoldEdges, List.filter_eq_nil_iff]
  constructor
  · intro h e he
    have := h e ((mem_dictKeys e (allEdges mesh)).mpr he)
    simpa using this
  · intro h e he
    have := h e ((mem_dictKeys e (allEdges mesh)).mp he)
    simpa using this

/-- C3: the manifold validator fails exactly on the empty mesh or when
some undirected edge key (exact unwelded endpoints, endpoint order
normalized) is referenced more than twice; the non-manifold error carries
the number of such distinct edges, and every non-empty mesh in which no
edge is referenced more than twice validates successfully. -/
theorem C3_validate_stl (mesh : List Tri) :
    (validate_stl mesh = Except.ok () ↔
      mesh ≠ [] ∧ ∀ e ∈ allEdges mesh, edgeCount mesh e ≤ 2)
    ∧ (mesh = [] → validate_stl mesh = Except.error STLValidationError.emptyMesh)
    ∧ (mesh ≠ [] → (∃ e ∈ allEdges mesh, 2 < edgeCount mesh e) →
        validate_stl mesh
          = Except.error (STLValidationError.nonManifold (nonManifoldEdges mesh).length)
        ∧ (nonManifoldEdges mesh).length ≠ 0) := by
  refine ⟨?_, ?_, ?_⟩
  · constructor
    · intro h
      rw [validate_stl] at h
      by_cases h0 : mesh.length = 0
      · rw [if_pos h0] at h; exact absurd h (by simp)
      · rw [if_neg h0] at h
        by_cases h1 : (nonManifoldEdges mesh).length ≠ 0
        · rw [if_pos h1] at h; exact absurd h (by simp)
        · refine ⟨by simpa using h0, ?_⟩
          exact (nonManifoldEdges_eq_nil_iff mesh).mp (by omega)
    · rintro ⟨h0, h2⟩
      rw [validate_stl, if_neg (by simpa using h0),
        if_neg (by simpa using (nonManifoldEdges_eq_nil_iff mesh).mpr h2)]
  · intro h
    rw [validate_stl, if_pos (by simp [h])]
  · intro h0 hbad
    have hne : (nonManifoldEdges mesh).length ≠ 0 := by
      intro hz
      obtain ⟨e, he, hc⟩ := hbad
      have := (nonManifoldEdges_eq_nil_iff mesh).mp hz e he
      omega
    refine ⟨?_, hne⟩
    rw [validate_stl, if_neg (by simpa using h0), if_pos hne]

/-- Three triangles all sharing the edge (2,2,2)-(3,2,2). -/
def c3mesh : List Tri :=
  [((2, 2, 2), (3, 2, 2), (2, 3, 2)),
   ((2, 2, 2), (3, 2, 2), (2, 2, 3)),
   ((2, 2, 2), (3, 2, 2), (3, 3, 3))]

/-- C3 witness: one edge shared by three triangles is rejected with a
non-manifold error reporting exactly 1 bad edge. -/
theorem C3_validate_stl_witness :
    c3mesh ≠ []
    ∧ (∃ e ∈ allEdges c3mesh, 2 < edgeCount c3mesh e)
    ∧ validate_stl c3mesh = Except.error (STLValidationError.nonManifold 1) := by
  have h1 : c3mesh ≠ [] := by simp [c3mesh]
  have hAll : allEdges c3mesh =
      [((2, 2, 2), (3, 2, 2)), ((2, 3, 2), (3, 2, 2)), ((2, 2, 2), (2, 3, 2)),
       ((2, 2, 2), (3, 2, 2)), ((2, 2, 3), (3, 2, 2)), ((2, 2, 2), (2, 2, 3)),
       ((2, 2, 2), (3, 2, 2)), ((3, 2, 2), (3, 3, 3)), ((2, 2, 2), (3, 3, 3))] := by
    norm_num [allEdges, triEdges, edgeKey, ptLt, c3mesh]
  have hKeys : dictKeys (allEdges c3mesh) =
      [((2, 2, 2), (3, 2, 2)), ((2, 3, 2), (3, 2, 2)), ((2, 2, 2), (2, 3, 2)),
       ((2, 2, 3), (3, 2, 2)), ((2, 2, 2), (2, 2, 3)), ((3, 2, 2), (3, 3, 3)),
       ((2, 2, 2), (3, 3, 3))] := by
    rw [hAll]
    norm_num [dictKeys, insertKey, List.foldl]
  have hC0 : edgeCount c3mesh (((2:ℚ), (2:ℚ), (2:ℚ)), ((3:ℚ), (2:ℚ), (2:ℚ))) = 3 := by
    rw [edgeCount, hAll]
    norm_num [List.filter]
  have h2 : ∃ e ∈ allEdges c3mesh, 2 < edgeCount c3mesh e := by
    refine ⟨((2, 2, 2), (3, 2, 2)), ?_, ?_⟩
    · rw [hAll]; norm_num
    · rw [hC0]; norm_num
  have h3 := (C3_validate_stl c3mesh).2.2 h1 h2
  have hn : (nonManifoldEdges c3mesh).length = 1 := by
    rw [nonManifoldEdges, hKeys]
    simp only [edgeCount, hAll]
    norm_num [List.filter]
  exact ⟨h1, h2, by rw [h3.1, hn]⟩

/-- The value of a percent difference: a float that is either finite or
the `float('inf')` sentinel the code stores when the source metric is 0. -/
inductive PDiff where
  | finite (q : ℚ) : PDiff
  | posInf : PDiff
deriving DecidableEq

/-- Absolute value as Python's `abs` acts on these values
(`abs(inf) = inf`). -/
def pdAbs : PDiff → PDiff
  | PDiff.finite q => PDiff.finite |q|
  | PDiff.posInf => PDiff.posInf

/-- `d > t` for a possibly-infinite difference and a finite tolerance
(`inf > t` is true for every float `t`). -/
def pdGtTol : PDiff → ℚ → Bool
  | PDiff.finite q, t => decide (t < q)
  | PDiff.posInf, _ => true

/-- One per-metric comparison record (`{'stl', 'scad', 'difference',
'difference_percent'}`). -/
structure CompEntry where
  stl : ℚ
  scad : ℚ
  difference : ℚ
  difference_percent : PDiff
deriving DecidableEq

/-- The comparison arithmetic of `compare_metrics`:
`diff = scad - stl`, `diff_percent = diff / stl * 100 if stl != 0 else
float('inf')`. -/
def mkCompEntry (s t : ℚ) : CompEntry :=
  ⟨s, t, t - s,
    if s ≠ 0 then PDiff.finite ((t - s) / s * 100) else PDiff.posInf⟩

/-- Bounding-box dimensions compared by the verifier (`width`, `height`,
`depth`; both sides always carry all three when present). -/
structure BBoxDims where
  width : ℚ
  height : ℚ
  depth : ℚ
deriving DecidableEq

/-- A metric set: `None` fields model values the renderer failed to
report. -/
structure MetricSet where
  volume : Option ℚ
  surface_area : Option ℚ
  bounding_box : Option BBoxDims

/-- Per-dimension bounding-box comparison entries. -/
structure BBoxComp where
  width : CompEntry
  height : CompEntry
  depth : CompEntry
deriving DecidableEq

/-- The result dict of `compare_metrics`: a key is present exactly when
the metric is present (non-`None`) on both sides. -/
structure Comparison where
  volume : Option CompEntry
  surface_area : Option CompEntry
  bounding_box : Option BBoxComp
deriving DecidableEq

/-- `compare_metrics(stl_metrics, scad_metrics)` from `metrics.py`. -/
def compare_metrics (stlM scadM : MetricSet) : Comparison where
  volume :=
    match stlM.volume, scadM.volume with
    | some s, some t => some (mkCompEntry s t)
    | _, _ => none
  surface_area :=
    match stlM.surface_area, scadM.surface_area with
    | some s, some t => some (mkCompEntry s t)
    | _, _ => none
  bounding_box :=
    match stlM.bounding_box, scadM.bounding_box with
    | some s, some t =>
      some ⟨mkCompEntry s.width t.width, mkCompEntry s.height t.height,
        mkCompEntry s.depth t.depth⟩
    | _, _ => none

/-- The three percentage tolerances used by the verifier. -/
structure Tolerance where
  volume : ℚ
  surface_area : ℚ
  bounding_box : ℚ
deriving DecidableEq

/-- One entry of the report's `failures` list (`metric`,
`difference_percent` as the stored absolute value, `tolerance`; the
human-readable message is omitted as pure formatting). -/
structure FailureEntry where
  metric : String
  difference_percent : PDiff
  tolerance : ℚ
deriving DecidableEq

/-- `abs(…['difference_percent']) > tolerance[…]`: the failing test. -/
def metricFails (c : CompEntry) (tol : ℚ) : Bool :=
  pdGtTol (pdAbs c.difference_percent) tol

/-- The pure decision core of `verify_existing_conversion` in
`verification.py`: the `passed` flag (each failing check sets it to
`False`; the bounding-box loop breaks at the first failing dimension) and
the report's `failures` list (volume, then surface area, then the
bounding-box dimensions in `width`, `height`, `depth` order). -/
def verify_existing_conversion (stlM scadM : MetricSet) (tol : Tolerance) :
    Bool × List FailureEntry :=
  let comp := compare_metrics stlM scadM
  let passedV : Bool :=
    match comp.volume with
    | some c => ¬(metricFails c tol.volume)
    | none => true
  let passedA : Bool :=
    match comp.surface_area with
    | some c => ¬(metricFails c tol.surface_area)
    | none => true
  let passedB : Bool :=
    match comp.bounding_box with
    | some bc => ¬(metricFails bc.width tol.bounding_box
        || metricFails bc.height tol.bounding_box
        || metricFails bc.depth tol.bounding_box)
    | none => true
  let failuresV : List FailureEntry :=
    match comp.volume with
    | some c =>
      if metricFails c tol.volume then
        [⟨"volume", pdAbs c.difference_percent, tol.volume⟩]
      else []
    | none => []
  let failuresA : List FailureEntry :=
    match comp.surface_area with
    | some c =>
      if metricFails c tol.surface_area then
        [⟨"surface_area", pdAbs c.difference_percent, tol.surface_area⟩]
      else []
    | none => []
  let failuresB : List FailureEntry :=
    match comp.bounding_box with
    | some bc =>
      (if metricFails bc.width tol.bounding_box then
        [⟨"bounding_box_width", pdAbs bc.width.difference_percent, tol.bounding_box⟩]
      else []) ++
      (if metricFails bc.height tol.bounding_box then
        [⟨"bounding_box_height", pdAbs bc.height.difference_percent, tol.bounding_box⟩]
      else []) ++
      (if metricFails bc.depth tol.bounding_box then
        [⟨"bounding_box_depth", pdAbs bc.depth.difference_percent, tol.bounding_box⟩]
      else [])
    | none => []
  (passedV && passedA && passedB, failuresV ++ failuresA ++ failuresB)

/-- The default tolerance map of `verify_conversion`: 1% volume, 2%
surface area, 0.5% bounding-box dimensions. -/
def defaultTolerance : Tolerance := ⟨1, 2, 1/2⟩

/-- `verify_conversion`'s tolerance handling: `None` selects the default
map, a caller-supplied map is used exactly as given. -/
def verify_conversion (stlM scadM : MetricSet) (tol : Option Tolerance) :
    Bool × List FailureEntry :=
  verify_existing_conversion stlM scadM
    (match tol with
     | none => defaultTolerance
     | some t => t)

/-- C4 (amended): percent difference is `(target - source) / source * 100`
when `source != 0`; whenever `source == 0` the stored value is the
`float('inf')` sentinel — including when `target == 0` — and no division
is evaluated.  The same arithmetic is applied to volume and surface area
(and each bounding-box dimension) by `compare_metrics`. -/
theorem C4_percent_difference (s t : ℚ) :
    ((s ≠ 0 → (mkCompEntry s t).difference_percent = PDiff.finite ((t - s) / s * 100))
    ∧ (s = 0 → (mkCompEntry s t).difference_percent = PDiff.posInf)
    ∧ (mkCompEntry s t).difference = t - s
    ∧ (mkCompEntry s t).stl = s ∧ (mkCompEntry s t).scad = t)
    ∧ (∀ a b : MetricSet, a.volume = some s → b.volume = some t →
        (compare_metrics a b).volume = some (mkCompEntry s t))
    ∧ (∀ a b : MetricSet, a.surface_area = some s → b.surface_area = some t →
        (compare_metrics a b).surface_area = some (mkCompEntry s t)) := by
  refine ⟨⟨?_, ?_, rfl, rfl, rfl⟩, ?_, ?_⟩
  · intro h
    simp [mkCompEntry, h]
  · intro h
    simp [mkCompEntry, h]
  · intro a b ha hb
    simp [compare_metrics, ha, hb]
  · intro a b ha hb
    simp [compare_metrics, ha, hb]

/-- C4 witness: a finite case (2 vs 3) and the sentinel case (0 vs 5). -/
theorem C4_percent_difference_witness :
    ((2:ℚ) ≠ 0 ∧ (mkCompEntry (2:ℚ) 3).difference_percent
        = PDiff.finite ((3 - 2) / 2 * 100))
    ∧ ((0:ℚ) = 0 ∧ (mkCompEntry (0:ℚ) 5).difference_percent = PDiff.posInf) :=
  ⟨⟨by norm_num, (C4_percent_difference 2 3).1.1 (by norm_num)⟩,
   ⟨rfl, (C4_percent_difference 0 5).1.2.1 rfl⟩⟩

/-- C4 counterexample: for source 0 and target 0 the code stores the
`inf` sentinel, not 0 as the claim states. -/
theorem C4_counterexample :
    (compare_metrics ⟨some 0, none, none⟩ ⟨some 0, none, none⟩).volume
        = some ⟨0, 0, 0, PDiff.posInf⟩
    ∧ PDiff.posInf ≠ PDiff.finite 0 := by
  constructor
  · simp [compare_metrics, mkCompEntry]
  · simp

/-- C5: a metric present in both sets fails iff its absolute percent
difference exceeds that metric's tolerance; the overall `passed` flag is
true iff no present metric fails (absent metrics are skipped); every
failing metric contributes its entry to the report's failure list.
Concretely, source volume 100 against target 101 passes at volume
tolerance 2 and fails at tolerance 1/2, recording difference_percent 1. -/
theorem C5_verify_tolerances (a b : MetricSet) (tol : Tolerance) :
    ((verify_existing_conversion a b tol).1 = true ↔
      (∀ c, (compare_metrics a b).volume = some c → metricFails c tol.volume = false)
      ∧ (∀ c, (compare_metrics a b).surface_area = some c →
          metricFails c tol.surface_area = false)
      ∧ (∀ bc, (compare_metrics a b).bounding_box = some bc →
          metricFails bc.width tol.bounding_box = false
          ∧ metricFails bc.height tol.bounding_box = false
          ∧ metricFails bc.depth tol.bounding_box = false))
    ∧ (∀ c, (compare_metrics a b).volume = some c → metricFails c tol.volume = true →
        (⟨"volume", pdAbs c.difference_percent, tol.volume⟩ : FailureEntry)
          ∈ (verify_existing_conversion a b tol).2)
    ∧ (∀ c, (compare_metrics a b).surface_area = some c →
        metricFails c tol.surface_area = true →
        (⟨"surface_area", pdAbs c.difference_percent, tol.surface_area⟩ : FailureEntry)
          ∈ (verify_existing_conversion a b tol).2)
    ∧ (∀ bc, (compare_metrics a b).bounding_box = some bc →
        (metricFails bc.width tol.bounding_box = true →
          (⟨"bounding_box_width", pdAbs bc.width.difference_percent, tol.bounding_box⟩
            : FailureEntry) ∈ (verify_existing_conversion a b tol).2)
        ∧ (metricFails bc.height tol.bounding_box = true →
          (⟨"bounding_box_height", pdAbs bc.height.difference_percent, tol.bounding_box⟩
            : FailureEntry) ∈ (verify_existing_conversion a b tol).2)
        ∧ (metricFails bc.depth tol.bounding_box = true →
          (⟨"bounding_box_depth", pdAbs bc.depth.difference_percent, tol.bounding_box⟩
            : FailureEntry) ∈ (verify_existing_conversion a b tol).2))
    ∧ verify_existing_conversion ⟨some 100, none, none⟩ ⟨some 101, none, none⟩ ⟨2, 2, 2⟩
        = (true, [])
    ∧ verify_existing_conversion ⟨some 100, none, none⟩ ⟨some 101, none, none⟩ ⟨1/2, 2, 2⟩
        = (false, [⟨"volume", PDiff.finite 1, 1/2⟩]) := by
  refine ⟨?_, ?_, ?_, ?_, ?_, ?_⟩
  · cases hcv : (compare_metrics a b).volume <;>
      cases hca : (compare_metrics a b).surface_area <;>
      cases hcb : (compare_metrics a b).bounding_box <;>
      simp [verify_existing_conversion, hcv, hca, hcb] <;>
      tauto
  · intro c hcv hf
    cases hca : (compare_metrics a b).surface_area <;>
      cases hcb : (compare_metrics a b).bounding_box <;>
      simp [verify_existing_conversion, hcv, hca, hcb, hf]
  · intro c hca hf
    cases hcv : (compare_metrics a b).volume <;>
      cases hcb : (compare_metrics a b).bounding_box <;>
      simp [verify_existing_conversion, hcv, hca, hcb, hf] <;>
      split_ifs <;> simp
  · intro bc hcb
    refine ⟨?_, ?_, ?_⟩ <;>
      intro hf <;>
      cases hcv : (compare_metrics a b).volume <;>
        cases hca : (compare_metrics a b).surface_area <;>
        simp [verify_existing_conversion, hcv, hca, hcb, hf] <;>
        split_ifs <;> simp
  · norm_num [verify_existing_conversion, compare_metrics, mkCompEntry, metricFails,
      pdAbs, pdGtTol]
  · norm_num [verify_existing_conversion, compare_metrics, mkCompEntry, metricFails,
      pdAbs, pdGtTol]

/-- C5 witness: volume 100 vs 101 at tolerance 1/2 fails and its entry is
recorded in the failure list. -/
theorem C5_verify_tolerances_witness :
    (compare_metrics ⟨some 100, none, none⟩ ⟨some 101, none, none⟩).volume
        = some (mkCompEntry 100 101)
    ∧ metricFails (mkCompEntry 100 101) (1/2) = true
    ∧ (⟨"volume", pdAbs (mkCompEntry 100 101).difference_percent, (1/2)⟩ : FailureEntry)
        ∈ (verify_existing_conversion ⟨some 100, none, none⟩ ⟨some 101, none, none⟩
            ⟨1/2, 2, 2⟩).2 := by
  have h1 : (compare_metrics ⟨some 100, none, none⟩ ⟨some 101, none, none⟩).volume
      = some (mkCompEntry 100 101) := by
    simp [compare_metrics]
  have h2 : metricFails (mkCompEntry 100 101) (1/2) = true := by
    norm_num [metricFails, mkCompEntry, pdAbs, pdGtTol]
  exact ⟨h1, h2,
    (C5_verify_tolerances ⟨some 100, none, none⟩ ⟨some 101, none, none⟩ ⟨1/2, 2, 2⟩).2.1
      (mkCompEntry 100 101) h1 h2⟩

/-- C10: with no caller-supplied tolerance map, verification uses the
defaults volume 1%, surface area 2%, bounding box 0.5%; a supplied map is
used exactly as given.  The closed conjuncts pin the three numeric
defaults at their pass/fail boundaries. -/
theorem C10_default_tolerance (s c : MetricSet) :
    verify_conversion s c none = verify_existing_conversion s c ⟨1, 2, 1/2⟩
    ∧ defaultTolerance = ⟨1, 2, 1/2⟩
    ∧ (∀ t, verify_conversion s c (some t) = verify_existing_conversion s c t)
    ∧ (verify_conversion ⟨some 100, none, none⟩ ⟨some 101, none, none⟩ none).1 = true
    ∧ (verify_conversion ⟨some 1000, none, none⟩ ⟨some 1011, none, none⟩ none).1 = false
    ∧ (verify_conversion ⟨none, some 100, none⟩ ⟨none, some 102, none⟩ none).1 = true
    ∧ (verify_conversion ⟨none, some 1000, none⟩ ⟨none, some 1025, none⟩ none).1 = false
    ∧ (verify_conversion ⟨none, none, some ⟨200, 200, 200⟩⟩
        ⟨none, none, some ⟨201, 200, 200⟩⟩ none).1 = true
    ∧ (verify_conversion ⟨none, none, some ⟨1000, 1000, 1000⟩⟩
        ⟨none, none, some ⟨1006, 1000, 1000⟩⟩ none).1 = false := by
  refine ⟨rfl, rfl, fun t => rfl, ?_, ?_, ?_, ?_, ?_, ?_⟩ <;>
    norm_num [verify_conversion, verify_existing_conversion, defaultTolerance,
      compare_metrics, mkCompEntry, metricFails, pdAbs, pdGtTol,
      abs_of_nonneg, abs_of_nonpos]

/-- One batch input as the library sees it: the outcome of converting and
verifying that file — either a verification result (its `passed` flag) or
a raised exception (its message).  This abstracts the per-file I/O of
`verify_conversion` + `save_report`. -/
abbrev FileOutcome : Type := Except String Bool

/-- `batch_verify(stl_files, …)` from `verification.py`: processes the
inputs sequentially; there is no try/except in the loop, so the first
file whose processing raises aborts the whole batch (the exception
propagates and no results are returned).  On success the dict of results
(here, the ordered list of per-file passed flags) is returned and the
summary's `total` is its length. -/
def batch_verify : List FileOutcome → Except String (List Bool)
  | [] => Except.ok []
  | Except.error e :: _ => Except.error e
  | Except.ok r :: rest =>
    match batch_verify rest with
    | Except.error e => Except.error e
    | Except.ok rs => Except.ok (r :: rs)

/-- One entry of the CLI batch command's `results` dict: the recorded
`passed` flag and, for a file whose processing raised, the error string
(`{'passed': False, 'error': str(e)}`). -/
structure BatchEntry where
  passed : Bool
  error : Option String
deriving DecidableEq

/-- The per-file loop of `batch_command` in `cli.py`: each file is
processed inside `try/except`; an exception is recorded as an error entry
and the loop continues with the next file. -/
def batch_command_results (files : List FileOutcome) : List BatchEntry :=
  files.map (fun f =>
    match f with
    | Except.ok p => ⟨p, none⟩
    | Except.error e => ⟨false, some e⟩)

/-- The CLI batch summary `{total, passed, failed}` computed from the
results dict. -/
def batch_summary (entries : List BatchEntry) : Nat × Nat × Nat :=
  (entries.length,
   (entries.filter (fun e => e.passed)).length,
   (entries.filter (fun e => !e.passed)).length)

/-- C6 (amended): per-file failure tolerance lives in the CLI batch
command, whose loop records an error entry for a file whose conversion or
verification raises and continues with the next file, so its results and
summary cover all inputs and `total` equals the input count.  The library
`batch_verify` has no per-file `try`/`except`: it propagates the first
exception, aborting the batch; it returns one result per input only when
every file succeeds. -/
theorem C6_batch_per_file_tolerance (files : List FileOutcome) :
    (batch_command_results files).length = files.length
    ∧ (batch_summary (batch_command_results files)).1 = files.length
    ∧ (∀ k, k < files.length →
        (∀ e, files.getD k (Except.ok true) = Except.error e →
          (batch_command_results files).getD k ⟨true, none⟩ = ⟨false, some e⟩)
        ∧ (∀ p, files.getD k (Except.ok true) = Except.ok p →
          (batch_command_results files).getD k ⟨true, none⟩ = ⟨p, none⟩))
    ∧ (∀ rs, batch_verify files = Except.ok rs → rs.length = files.length)
    ∧ (∀ e, batch_verify files = Except.error e → Except.error e ∈ files) := by
  refine ⟨by simp [batch_command_results], by simp [batch_summary, batch_command_results],
    ?_, ?_, ?_⟩
  · intro k hk
    constructor
    · intro e he
      rw [batch_command_results, List.getD_eq_getElem _ _ (by simpa using hk),
        List.getElem_map]
      rw [List.getD_eq_getElem _ _ hk] at he
      rw [he]
    · intro p hp
      rw [batch_command_results, List.getD_eq_getElem _ _ (by simpa using hk),
        List.getElem_map]
      rw [List.getD_eq_getElem _ _ hk] at hp
      rw [hp]
  · induction files with
    | nil =>
      intro rs h
      simp only [batch_verify] at h
      obtain rfl : ([] : List Bool) = rs := by simpa using h
      rfl
    | cons f rest ih =>
      intro rs h
      cases f with
      | error e => simp [batch_verify] at h
      | ok r =>
        simp only [batch_verify] at h
        cases hr : batch_verify rest with
        | error e => rw [hr] at h; simp at h
        | ok rs0 =>
          rw [hr] at h
          simp only [Except.ok.injEq] at h
          subst h
          simp [ih rs0 hr]
  · induction files with
    | nil =>
      intro e h
      simp [batch_verify] at h
    | cons f rest ih =>
      intro e h
      cases f with
      | error e0 =>
        simp only [batch_verify, Except.error.injEq] at h
        subst h
        simp
      | ok r =>
        simp only [batch_verify] at h
        cases hr : batch_verify rest with
        | error e0 =>
          rw [hr] at h
          simp only [Except.error.injEq] at h
          subst h
          simp [ih e0 hr]
        | ok rs0 => rw [hr] at h; simp at h

/-- Three successful inputs followed by one corrupt input. -/
def c6files : List FileOutcome :=
  [Except.ok true, Except.ok true, Except.ok true, Except.error "corrupt"]

/-- C6 witness: the CLI loop on 3 valid + 1 corrupt inputs yields 4
entries with summary total 4, the error recorded on the fourth. -/
theorem C6_batch_per_file_tolerance_witness :
    (batch_command_results c6files).length = c6files.length
    ∧ (batch_summary (batch_command_results c6files)).1 = c6files.length
    ∧ 3 < c6files.length
    ∧ c6files.getD 3 (Except.ok true) = Except.error "corrupt"
    ∧ (batch_command_results c6files).getD 3 ⟨true, none⟩ = ⟨false, some "corrupt"⟩ :=
  ⟨(C6_batch_per_file_tolerance c6files).1,
   (C6_batch_per_file_tolerance c6files).2.1,
   by simp [c6files],
   by simp [c6files],
   ((C6_batch_per_file_tolerance c6files).2.2.1 3 (by simp [c6files])).1 "corrupt"
     (by simp [c6files])⟩

/-- C6 counterexample: on the same 3 valid + 1 corrupt inputs the library
`batch_verify` propagates the exception and returns no results at all,
instead of 4 results with a recorded error. -/
theorem C6_counterexample :
    batch_verify c6files = Except.error "corrupt"
    ∧ ∀ rs : List Bool, batch_verify c6files ≠ Except.ok rs := by
  constructor
  · rfl
  · intro rs h
    rw [show batch_verify c6files = Except.error "corrupt" from rfl] at h
    exact absurd h (by simp)
